import Mathlib

/-!
Shallow embedding of the snippet-file parser in src/main.ts (an Obsidian
plugin that reads UltiSnips-style snippet files).  JavaScript strings are
modelled as lists of characters; JavaScript string methods (split with a
limit, substring with clamping, at with negative indices, lastIndexOf,
trim / trimEnd, includes, replace-first) are modelled by the js-prefixed
helpers below, each faithful to the ECMAScript behaviour the source relies
on.  Thrown runtime errors (indexing into null / undefined) are modelled
with an Except layer; the generator parseSnippets is modelled as a loop
that threads the list of values it yields (the body of the generator
contains no yield statement, only returns) together with its completion:
normal end, an explicit return value, or a thrown error.
-/

abbrev Str := List Char

/-- Whitespace as trimmed by the JavaScript trim family (ASCII part). -/
def isWsChar (c : Char) : Bool :=
  decide (c = ' ' ∨ c = '\t' ∨ c = '\n' ∨ c = '\r' ∨ c = '\x0b' ∨ c = '\x0c')

def trimStartL (s : Str) : Str := s.dropWhile isWsChar

def trimEndL (s : Str) : Str := (s.reverse.dropWhile isWsChar).reverse

/-- JavaScript String.prototype.trim. -/
def jsTrim (s : Str) : Str := trimEndL (trimStartL s)

/-- JavaScript String.prototype.split with a one-character separator and no
limit: keeps empty fragments, and the empty string splits to one empty
fragment. -/
def jsSplitChar (sep : Char) : Str → List Str
  | [] => [[]]
  | c :: rest =>
    if c = sep then [] :: jsSplitChar sep rest
    else
      match jsSplitChar sep rest with
      | w :: ws => (c :: w) :: ws
      | [] => [[c]]

/-- JavaScript String.prototype.substring: both ends clamped to the string
and swapped when out of order. -/
def jsSubstring (s : Str) (a b : Int) : Str :=
  let len : Int := s.length
  let a2 := (min (max a 0) len).toNat
  let b2 := (min (max b 0) len).toNat
  ((s.drop (min a2 b2)).take (max a2 b2 - min a2 b2))

/-- One-argument substring: from the index to the end. -/
def jsSubstringFrom (s : Str) (a : Int) : Str := jsSubstring s a (s.length : Int)

/-- JavaScript Array.prototype.at / String.prototype.at with negative
indexing. -/
def jsAtList (l : List α) (i : Int) : Option α :=
  let j : Int := if 0 ≤ i then i else (l.length : Int) + i
  if 0 ≤ j then l.get? j.toNat else none

/-- Index of the last occurrence, none when absent. -/
def lastIndexOfAux (c : Char) : Str → Option Nat
  | [] => none
  | x :: xs =>
    match lastIndexOfAux c xs with
    | some k => some (k + 1)
    | none => if x = c then some 0 else none

/-- JavaScript String.prototype.lastIndexOf for a single character:
the index, or -1 when absent. -/
def jsLastIndexOf (s : Str) (c : Char) : Int :=
  match lastIndexOfAux c s with
  | some k => (k : Int)
  | none => -1

/-- JavaScript String.prototype.replace with a plain one-character pattern
and empty replacement: removes the first occurrence only. -/
def jsReplaceFirstChar (c : Char) : Str → Str
  | [] => []
  | x :: xs => if x = c then xs else x :: jsReplaceFirstChar c xs

/-- Chomp of the last character, as content.substring(0, content.length - 1);
the empty string stays empty because substring clamps. -/
def chompLast (s : Str) : Str := jsSubstring s 0 ((s.length : Int) - 1)

/-- Decimal rendering of a line number, as JavaScript template interpolation
of a number. -/
def natToStr (n : Nat) : Str := (Nat.repr n).toList

/-- The pythonGlobals object: key to ordered list of accumulated bodies. -/
abbrev Globals := List (Str × List Str)

/-- The actions / preExpand object. -/
abbrev Actions := List (Str × Str)

def lookupG (g : Globals) (k : Str) : Option (List Str) :=
  match g with
  | [] => none
  | p :: rest => if p.1 = k then some p.2 else lookupG rest k

def updateG (g : Globals) (k : Str) (v : List Str) : Globals :=
  g.map (fun p => if p.1 = k then (k, v) else p)

/-- The SnippetDefinition class of src/main.ts (the fields the constructor
sets; matched and lastRegex are left unset by the constructor). -/
structure SnippetDefinition where
  priority : Int
  trigger : Str
  value : Str
  description : Str
  options : Str
  globals : Option Globals
  location : Str
  context : Option Str
  actions : Actions
deriving DecidableEq, Repr

/-- A thrown JavaScript runtime error. -/
inductive JsError
  | typeError (msg : Str)
deriving DecidableEq, Repr

def nullIndexMsg : Str := ("TypeError: cannot read properties of null").toList

def pushUndefinedMsg : Str := ("TypeError: cannot read properties of undefined").toList

def undefinedSplitMsg : Str := ("TypeError: cannot read properties of undefined").toList

/-- What handleSnippetOrGlobal returns when it does not throw: either the
tagged error tuple or the tagged snippet tuple of the source. -/
inductive HandlerResult
  | err (msg : Str) (lineNumber : Nat)
  | snip (s : SnippetDefinition)
deriving DecidableEq, Repr

/-- How the generator body of parseSnippets finishes: falling off the end
(returning undefined), an explicit return statement wrapping a handler
result, or a thrown error.  The iteration protocol used by loadSnippets
discards the first two and propagates the third. -/
inductive GenReturn
  | normal
  | returned (r : HandlerResult)
deriving DecidableEq, Repr

/-- The headTail helper of parseSnippets: line.split(" ", 2), a JavaScript
split that returns at most the first two fragments. -/
def headTail (line : Str) : List Str := (jsSplitChar ' ' line).take 2

/-- Error messages of the source, built exactly as its template literals. -/
def invalidTriggerMsg (t : Str) : Str :=
  ("Invalid multiword trigger: \x27").toList ++ t ++ ("\x27").toList

def missingEndMsg (e t : Str) : Str :=
  ("Missing \x27").toList ++ e ++ ("\x27 for \x27").toList ++ t ++ ("\x27").toList

def invalidTypeMsg (h : Str) : Str :=
  ("Invalid snippet type: \x27").toList ++ h ++ ("\x27").toList

/-- Option-string detection of handleSnippetOrGlobal: when the tail has more
than two space-separated words, the second-to-last ends with a quote and the
last contains none, the last word becomes the options and is cut off the
tail (with the separating space, then trimEnd). -/
def detectOptions (tail : Str) : Str × Str :=
  let words := jsSplitChar ' ' tail
  if words.length > 2 then
    match jsAtList words (-1), jsAtList words (-2) with
    | some w1, some w2 =>
      if '"' ∉ w1 ∧ w2.getLast? = some '"' then
        (w1, trimEndL (jsSubstring tail 0 ((tail.length : Int) - (w1.length : Int) - 1)))
      else ([], tail)
    | _, _ => ([], tail)
  else ([], tail)

/-- Truthiness of the context variable: null and the empty string are falsy. -/
def contextFalsy : Option Str → Bool
  | none => true
  | some s => s.isEmpty

/-- Context extraction of handleSnippetOrGlobal: when the options contain e
and no context is set, the last quote before the final character starts the
context expression (first quote removed), the tail keeps what precedes it. -/
def extractContext (options : Str) (context : Option Str) (tail : Str) :
    Option Str × Str :=
  if 'e' ∈ options ∧ contextFalsy context = true then
    let left := jsLastIndexOf (jsSubstring tail 0 ((tail.length : Int) - 1)) '"'
    if left ≠ -1 ∧ left ≠ 0 then
      (some (jsReplaceFirstChar '"' (jsSubstringFrom tail left)), jsSubstring tail 0 left)
    else (context, tail)
  else (context, tail)

/-- Description extraction of handleSnippetOrGlobal: when the trimmed tail
is longer than one character and ends with a quote, the last quote before
the final character starts the description (quotes kept as in the source),
the tail keeps what precedes it. -/
def extractDescription (tail : Str) : Str × Str :=
  if tail.length > 1 ∧ tail.getLast? = some '"' then
    let left := jsLastIndexOf (jsSubstring tail 0 ((tail.length : Int) - 1)) '"'
    if left ≠ -1 ∧ left ≠ 0 then
      (jsSubstringFrom tail left, jsSubstring tail 0 left)
    else ([], tail)
  else ([], tail)

/-- The header-parsing phase of handleSnippetOrGlobal applied to the tail of
the directive line, in source order: options, context, trim, description,
then the trimmed trigger candidate. -/
def headerPhase (context : Option Str) (tail : Str) :
    Str × Option Str × Str × Str :=
  let od := detectOptions tail
  let cd := extractContext od.1 context od.2
  let t2 := jsTrim cd.2
  let dd := extractDescription t2
  (od.1, cd.1, dd.1, jsTrim dd.2)

/-- The body-collection loop of handleSnippetOrGlobal: accumulate lines
(without any newline, as the source concatenates split fragments) and count
them, until a line whose trimEnd equals the end marker is found; on a match
the last character of the content is chomped.  Returns whether the marker
was found, the content, and the line counter. -/
def collectBody (endMarker : Str) : List Str → Str → Nat → Bool × Str × Nat
  | [], content, cln => (false, content, cln)
  | l :: ls, content, cln =>
    if trimEndL l = endMarker then (true, chompLast content, cln)
    else collectBody endMarker ls (content ++ l) (cln + 1)

/-- The tail of handleSnippetOrGlobal after the trigger is settled: body
collection, then the switch on the directive keyword.  In the source the
global case falls through (after its push) to the invalid-snippet-type
return; the push dereferences pythonGlobals, which throws when it is null,
and the discovered entry, which throws when the key is absent. -/
def finishBlock (filename head trigger options description : Str)
    (context : Option Str) (startingLineNumber currentLineNumber : Nat)
    (lines : List Str) (pythonGlobals : Option Globals)
    (currentPriority : Int) (preExpand : Actions) :
    Except JsError (HandlerResult × Option Globals) :=
  let endMarker := ("end").toList ++ head
  match collectBody endMarker lines [] currentLineNumber with
  | (false, _, cln) =>
    Except.ok (HandlerResult.err (missingEndMsg endMarker trigger) cln, pythonGlobals)
  | (true, content, cln) =>
    if head = ("global").toList then
      match pythonGlobals with
      | none => Except.error (JsError.typeError nullIndexMsg)
      | some g =>
        match lookupG g trigger with
        | none => Except.error (JsError.typeError pushUndefinedMsg)
        | some arr =>
          Except.ok (HandlerResult.err (invalidTypeMsg head) cln,
            some (updateG g trigger (arr ++ [content])))
    else if head = ("snippet").toList then
      Except.ok (HandlerResult.snip {
        priority := currentPriority
        trigger := trigger
        value := content
        description := description
        options := options
        globals := pythonGlobals
        location := filename ++ (":").toList ++ natToStr startingLineNumber
        context := context
        actions := preExpand }, pythonGlobals)
    else
      Except.ok (HandlerResult.err (invalidTypeMsg head) cln, pythonGlobals)

/-- The handleSnippetOrGlobal function of parseSnippets.  When the line has
no space, the destructured tail is undefined and tail.split throws.  The
returned pair carries the possibly mutated pythonGlobals object. -/
def handleSnippetOrGlobal (filename line : Str) (currentLineNumber : Nat)
    (lines : List Str) (pythonGlobals : Option Globals)
    (currentPriority : Int) (preExpand : Actions) (context : Option Str) :
    Except JsError (HandlerResult × Option Globals) :=
  match headTail line with
  | [] => Except.error (JsError.typeError undefinedSplitMsg)
  | [_] => Except.error (JsError.typeError undefinedSplitMsg)
  | head :: tail :: _ =>
    let hp := headerPhase context tail
    let options := hp.1
    let context2 := hp.2.1
    let description := hp.2.2.1
    let trigger0 := hp.2.2.2
    if trigger0.length > 1 ∨ 'r' ∈ options then
      if jsAtList trigger0 0 ≠ jsAtList trigger0 (-1) then
        Except.ok (HandlerResult.err (invalidTriggerMsg trigger0) currentLineNumber,
          pythonGlobals)
      else
        finishBlock filename head
          (jsSubstring trigger0 1 ((trigger0.length : Int) - 1))
          options description context2 currentLineNumber currentLineNumber
          lines pythonGlobals currentPriority preExpand
    else
      finishBlock filename head trigger0 options description context2
        currentLineNumber currentLineNumber lines pythonGlobals
        currentPriority preExpand

/-- The mutable state of the scan loop of parseSnippets. -/
structure LoopState where
  pythonGlobals : Option Globals
  currentLineNumber : Nat
  currentPriority : Int
  actions : Actions
  context : Option Str
deriving DecidableEq, Repr

def initState : LoopState :=
  { pythonGlobals := none, currentLineNumber := 0, currentPriority := 0,
    actions := [], context := none }

/-- The for-loop of parseSnippets over the split lines.  A blank line
continues without incrementing the line counter; a line whose first token is
snippet or global calls the handler, whose result is never null, so the
generator then returns, wrapping the handler result; any other line
increments the line counter; yields are threaded in the accumulator, which
no branch extends because the generator body contains no yield statement. -/
def parseSnippetsLoop (filename : Str) (allLines : List Str) :
    List Str → LoopState → List SnippetDefinition →
    List SnippetDefinition × Except JsError GenReturn
  | [], _, ys => (ys, Except.ok GenReturn.normal)
  | line :: rest, st, ys =>
    if jsTrim line = [] then parseSnippetsLoop filename allLines rest st ys
    else if (headTail line).headI = ("snippet").toList ∨
            (headTail line).headI = ("global").toList then
      match handleSnippetOrGlobal filename line st.currentLineNumber allLines
          st.pythonGlobals st.currentPriority st.actions st.context with
      | Except.error e => (ys, Except.error e)
      | Except.ok (res, _) => (ys, Except.ok (GenReturn.returned res))
    else
      parseSnippetsLoop filename allLines rest
        { st with currentLineNumber := st.currentLineNumber + 1 } ys

/-- The generator parseSnippets of src/main.ts: split the raw text on
newlines and scan; the first component is the list of yielded snippets, the
second the completion of the generator body. -/
def parseSnippets (filename raw : Str) :
    List SnippetDefinition × Except JsError GenReturn :=
  let lines := jsSplitChar '\n' raw
  parseSnippetsLoop filename lines lines initState []

/-- The per-file part of loadSnippets: spreading the parseSnippets iterator
collects exactly the yielded values; a return value is discarded by the
iteration protocol and a thrown error propagates. -/
def loadSnippetsFile (filename raw : Str) : Except JsError (List SnippetDefinition) :=
  match parseSnippets filename raw with
  | (ys, Except.ok _) => Except.ok ys
  | (_, Except.error e) => Except.error e

theorem collectBody_not_found (em : Str) :
    ∀ (ls : List Str) (content : Str) (cln : Nat),
    (∀ l ∈ ls, trimEndL l ≠ em) →
    ∃ ct, collectBody em ls content cln = (false, ct, cln + ls.length) := by
  intro ls
  induction ls with
  | nil => intro content cln _; exact ⟨content, rfl⟩
  | cons l rest ih =>
    intro content cln h
    have h1 : trimEndL l ≠ em := h l (by simp)
    obtain ⟨ct, hct⟩ := ih (content ++ l) (cln + 1)
      (fun x hx => h x (by simp [hx]))
    refine ⟨ct, ?_⟩
    have e : cln + 1 + rest.length = cln + (l :: rest).length := by
      simp [List.length_cons]; omega
    simp only [collectBody, if_neg h1, hct, e]

theorem collectBody_found (em t : Str) (ht : trimEndL t = em) :
    ∀ (pre : List Str) (rest : List Str) (content : Str) (cln : Nat),
    (∀ l ∈ pre, trimEndL l ≠ em) →
    ∃ ct, collectBody em (pre ++ t :: rest) content cln = (true, ct, cln + pre.length) := by
  intro pre
  induction pre with
  | nil =>
    intro rest content cln _
    refine ⟨chompLast content, ?_⟩
    simp only [List.nil_append, collectBody, if_pos ht, List.length_nil, Nat.add_zero]
  | cons l pr ih =>
    intro rest content cln h
    have h1 : trimEndL l ≠ em := h l (by simp)
    obtain ⟨ct, hct⟩ := ih rest (content ++ l) (cln + 1)
      (fun x hx => h x (by simp [hx]))
    refine ⟨ct, ?_⟩
    have e : cln + 1 + pr.length = cln + (l :: pr).length := by
      simp [List.length_cons]; omega
    simp only [List.cons_append, collectBody, if_neg h1]
    rw [← e]
    exact hct

theorem finishBlock_not_found (f head trig o d : Str) (ctx : Option Str)
    (sn cln : Nat) (lines : List Str) (g : Option Globals) (p : Int) (a : Actions)
    (hnf : ∀ l ∈ lines, trimEndL l ≠ ("end").toList ++ head) :
    finishBlock f head trig o d ctx sn cln lines g p a =
    Except.ok (HandlerResult.err (missingEndMsg (("end").toList ++ head) trig)
      (cln + lines.length), g) := by
  obtain ⟨ct, hct⟩ := collectBody_not_found (("end").toList ++ head) lines [] cln hnf
  simp only [finishBlock, hct]

theorem ne_space_of_not_ws {c : Char} (h : isWsChar c = false) : c ≠ ' ' := by
  intro e
  subst e
  simp [isWsChar] at h

theorem trimStartL_cons_of_not_ws {c : Char} (h : isWsChar c = false) (l : Str) :
    trimStartL (c :: l) = c :: l := by
  simp [trimStartL, List.dropWhile_cons, h]

theorem trimEndL_append_of_not_ws {c : Char} (h : isWsChar c = false) (l : Str) :
    trimEndL (l ++ [c]) = l ++ [c] := by
  simp [trimEndL, List.reverse_append, List.dropWhile_cons, h]

theorem jsTrim_single {c : Char} (h : isWsChar c = false) : jsTrim [c] = [c] := by
  simp [jsTrim, trimStartL, trimEndL, List.dropWhile_cons, h]

theorem all_ws_of_jsTrim_nil {l : Str} (h : jsTrim l = []) :
    ∀ c ∈ l, isWsChar c = true := by
  intro c hc
  have hsplit := List.takeWhile_append_dropWhile (p := isWsChar) (l := l)
  have h2 : (l.dropWhile isWsChar).reverse.dropWhile isWsChar = [] := by
    have := congrArg List.reverse h
    simpa [jsTrim, trimStartL, trimEndL] using this
  have h3 : ∀ x ∈ (l.dropWhile isWsChar).reverse, isWsChar x = true := by
    rw [List.dropWhile_eq_nil_iff] at h2
    exact h2
  rw [← hsplit] at hc
  rcases List.mem_append.mp hc with h4 | h4
  · exact List.mem_takeWhile_imp h4
  · exact h3 c (List.mem_reverse.mpr h4)

theorem trimEndL_of_jsTrim_nil {l : Str} (h : jsTrim l = []) : trimEndL l = [] := by
  have hall := all_ws_of_jsTrim_nil h
  simp only [trimEndL, List.reverse_eq_nil_iff, List.dropWhile_eq_nil_iff]
  intro a ha
  exact hall a (List.mem_reverse.mp ha)

theorem jsSplitChar_no_sep (sep : Char) :
    ∀ (l : Str), (∀ x ∈ l, x ≠ sep) → jsSplitChar sep l = [l] := by
  intro l
  induction l with
  | nil => intro _; rfl
  | cons c rest ih =>
    intro h
    have hc : c ≠ sep := h c (by simp)
    simp only [jsSplitChar, if_neg hc, ih (fun x hx => h x (by simp [hx]))]

theorem jsSplitChar_sep_append (sep : Char) :
    ∀ (l : Str) (rest : Str), (∀ x ∈ l, x ≠ sep) →
    jsSplitChar sep (l ++ sep :: rest) = l :: jsSplitChar sep rest := by
  intro l
  induction l with
  | nil =>
    intro rest _
    show jsSplitChar sep (sep :: rest) = [] :: jsSplitChar sep rest
    simp [jsSplitChar]
  | cons c lt ih =>
    intro rest h
    have hc : c ≠ sep := h c (by simp)
    have ih2 := ih rest (fun x hx => h x (by simp [hx]))
    simp only [List.cons_append, jsSplitChar, if_neg hc]
    have ih3 : jsSplitChar sep (lt.append (sep :: rest)) = lt :: jsSplitChar sep rest := ih2
    rw [ih3]

theorem headTail_global {c : Char} (hc : c ≠ ' ') :
    headTail (("global ").toList ++ [c]) = [("global").toList, [c]] := by
  unfold headTail
  have e : (("global ").toList ++ [c]) = ("global").toList ++ ' ' :: [c] := rfl
  rw [e, jsSplitChar_sep_append ' ' (("global").toList) ([c]) (by decide),
    jsSplitChar_no_sep ' ' [c]
      (by intro x hx; rw [List.mem_singleton] at hx; subst hx; exact hc)]
  rfl

theorem headerPhase_single {c : Char} (hc : isWsChar c = false) (ctx : Option Str) :
    headerPhase ctx [c] = ([], ctx, [], [c]) := by
  have hsp : jsSplitChar ' ' [c] = [[c]] :=
    jsSplitChar_no_sep ' ' [c]
      (by intro x hx; rw [List.mem_singleton] at hx; subst hx
          exact ne_space_of_not_ws hc)
  have hdo : detectOptions [c] = ([], [c]) := by
    simp [detectOptions, hsp]
  have hec : extractContext [] ctx [c] = (ctx, [c]) := by
    simp [extractContext]
  have hed : extractDescription [c] = ([], [c]) := by
    simp [extractDescription]
  simp [headerPhase, hdo, hec, hed, jsTrim_single hc]

theorem finishBlock_global_null (f trig o d : Str) (ctx : Option Str)
    (sn cln : Nat) (pre rest : List Str) (t : Str) (p : Int) (a : Actions)
    (hpre : ∀ l ∈ pre, trimEndL l ≠ ("end").toList ++ ("global").toList)
    (ht : trimEndL t = ("end").toList ++ ("global").toList) :
    finishBlock f (("global").toList) trig o d ctx sn cln (pre ++ t :: rest)
      none p a = Except.error (JsError.typeError nullIndexMsg) := by
  obtain ⟨ct, hct⟩ :=
    collectBody_found (("end").toList ++ ("global").toList) t ht pre rest [] cln hpre
  simp only [finishBlock, hct]
  simp

theorem handler_global_throws (f : Str) {c : Char} (hc : isWsChar c = false)
    (pre rest : List Str) (t : Str)
    (hpre : ∀ l ∈ pre, trimEndL l ≠ ("endglobal").toList)
    (ht : trimEndL t = ("endglobal").toList)
    (n : Nat) (p : Int) (a : Actions) :
    handleSnippetOrGlobal f (("global ").toList ++ [c]) n (pre ++ t :: rest)
      none p a none = Except.error (JsError.typeError nullIndexMsg) := by
  simp only [handleSnippetOrGlobal, headTail_global (ne_space_of_not_ws hc)]
  simp only [headerPhase_single hc]
  have hcond : ¬((([c] : Str).length > 1 ∨ 'r' ∈ ([] : Str))) := by simp
  rw [if_neg hcond]
  exact finishBlock_global_null f [c] [] [] none n n pre rest t p a hpre ht

/-- Claim C5: a snippet block whose terminator never appears before the end
of the file makes the per-directive handler fail with a missing-end-marker
error naming the expected terminator endsnippet, the trigger t, and the
line counter reached after scanning every line. -/
theorem snippet_missing_end_marker (f : Str) (bs : List Str)
    (h : ∀ l ∈ bs, trimEndL l ≠ ("endsnippet").toList) :
    handleSnippetOrGlobal f (("snippet \"t\"").toList) 0
      ((("snippet \"t\"").toList) :: bs) none 0 [] none =
    Except.ok (HandlerResult.err
      (("Missing \x27endsnippet\x27 for \x27t\x27").toList) (bs.length + 1), none) := by
  have hred : handleSnippetOrGlobal f (("snippet \"t\"").toList) 0
      ((("snippet \"t\"").toList) :: bs) none 0 [] none =
      finishBlock f (("snippet").toList) (("t").toList) [] [] none 0 0
        ((("snippet \"t\"").toList) :: bs) none 0 [] := rfl
  rw [hred]
  have hnf : ∀ l ∈ (("snippet \"t\"").toList) :: bs,
      trimEndL l ≠ ("end").toList ++ ("snippet").toList := by
    intro l hl
    rcases List.mem_cons.mp hl with he | hm
    · subst he; decide
    · exact h l hm
  rw [finishBlock_not_found _ _ _ _ _ _ _ _ _ _ _ _ hnf]
  have hm : missingEndMsg (("end").toList ++ ("snippet").toList) (("t").toList)
      = ("Missing \x27endsnippet\x27 for \x27t\x27").toList := rfl
  rw [hm]
  simp [List.length_cons]

theorem snippet_missing_end_marker_witness :
    handleSnippetOrGlobal (("f").toList) (("snippet \"t\"").toList) 0
      [(("snippet \"t\"").toList), ("BODY").toList] none 0 [] none =
    Except.ok (HandlerResult.err
      (("Missing \x27endsnippet\x27 for \x27t\x27").toList) 2, none) :=
  snippet_missing_end_marker (("f").toList) [("BODY").toList] (by decide)

/-- Claim C6: whenever the trigger candidate computed by the header phase is
longer than one character and its first and last characters differ, the
handler returns the invalid-multiword-trigger error naming that candidate at
the line number of the header. -/
theorem invalid_multiword_trigger (f line : Str) (n : Nat) (lines : List Str)
    (g : Option Globals) (p : Int) (a : Actions) (ctx : Option Str)
    (head tl : Str) (restTl : List Str)
    (o : Str) (c2 : Option Str) (d trig : Str)
    (h1 : headTail line = head :: tl :: restTl)
    (h2 : headerPhase ctx tl = (o, c2, d, trig))
    (h3 : trig.length > 1)
    (h4 : jsAtList trig 0 ≠ jsAtList trig (-1)) :
    handleSnippetOrGlobal f line n lines g p a ctx =
    Except.ok (HandlerResult.err (invalidTriggerMsg trig) n, g) := by
  simp only [handleSnippetOrGlobal, h1]
  simp only [h2]
  rw [if_pos (Or.inl h3), if_pos h4]

theorem invalid_multiword_trigger_witness :
    handleSnippetOrGlobal (("f").toList) (("snippet abc").toList) 7 []
      none 0 [] none =
    Except.ok (HandlerResult.err
      (("Invalid multiword trigger: \x27abc\x27").toList) 7, none) :=
  invalid_multiword_trigger (("f").toList) (("snippet abc").toList) 7 []
    none 0 [] none (("snippet").toList) (("abc").toList) []
    [] none [] (("abc").toList) (by decide) (by decide) (by decide) (by decide)

theorem loop_skip_blanks (f : Str) (al : List Str) :
    ∀ (blanks rest : List Str) (st : LoopState) (ys : List SnippetDefinition),
    (∀ l ∈ blanks, jsTrim l = []) →
    parseSnippetsLoop f al (blanks ++ rest) st ys =
      parseSnippetsLoop f al rest st ys := by
  intro blanks
  induction blanks with
  | nil => intro rest st ys _; rfl
  | cons b bl ih =>
    intro rest st ys h
    have hb : jsTrim b = [] := h b (by simp)
    simp only [List.cons_append, parseSnippetsLoop, if_pos hb]
    exact ih rest st ys (fun x hx => h x (by simp [hx]))

theorem loop_no_directives (f : Str) (al : List Str) :
    ∀ (ls : List Str),
    (∀ l ∈ ls, jsTrim l = [] ∨
      ((headTail l).headI ≠ ("snippet").toList ∧
       (headTail l).headI ≠ ("global").toList)) →
    ∀ (st : LoopState) (ys : List SnippetDefinition),
    parseSnippetsLoop f al ls st ys = (ys, Except.ok GenReturn.normal) := by
  intro ls
  induction ls with
  | nil => intro _ st ys; rfl
  | cons l rest ih =>
    intro h st ys
    have hrest := fun x hx => h x (List.mem_cons_of_mem l hx)
    by_cases hb : jsTrim l = []
    · simp only [parseSnippetsLoop, if_pos hb]
      exact ih hrest st ys
    · rcases h l (List.mem_cons_self l rest) with hb2 | hnd
      · exact absurd hb2 hb
      · simp only [parseSnippetsLoop, if_neg hb, if_neg (not_or.mpr hnd)]
        exact ih hrest _ ys

theorem parseSnippetsLoop_fst (f : Str) (al : List Str) (ls : List Str) :
    ∀ (st : LoopState) (ys : List SnippetDefinition),
    (parseSnippetsLoop f al ls st ys).1 = ys := by
  induction ls with
  | nil => intro st ys; rfl
  | cons l rest ih =>
    intro st ys
    simp only [parseSnippetsLoop]
    split
    · exact ih _ _
    · split
      · split
        · rfl
        · rfl
      · exact ih _ _

/-- Claim C2: the generator body of parseSnippets contains return statements
but no yield, so for every filename and every raw input string the sequence
of records it yields at the iterator interface is empty. -/
theorem parse_yields_no_records (f raw : Str) : (parseSnippets f raw).1 = [] := by
  simp only [parseSnippets]
  exact parseSnippetsLoop_fst f (jsSplitChar '\n' raw) (jsSplitChar '\n' raw)
    initState []

/-- Claim C10: a file none of whose lines opens a snippet or global directive
(each line is blank or its first token is neither snippet nor global) parses
to no yielded records and a normal completion, with no error returned and
none thrown. -/
theorem no_directives_empty_parse (f raw : Str)
    (h : ∀ l ∈ jsSplitChar '\n' raw, jsTrim l = [] ∨
      ((headTail l).headI ≠ ("snippet").toList ∧
       (headTail l).headI ≠ ("global").toList)) :
    parseSnippets f raw = ([], Except.ok GenReturn.normal) := by
  simp only [parseSnippets]
  exact loop_no_directives f _ _ h initState []

theorem no_directives_empty_parse_witness :
    parseSnippets (("f").toList) (("hello world\n\nfoo bar baz").toList) =
      ([], Except.ok GenReturn.normal) :=
  no_directives_empty_parse (("f").toList)
    (("hello world\n\nfoo bar baz").toList) (by decide)

/-- Claim C9: a file whose first non-blank directive is a well-formed global
block with a single-character key and a matching end marker makes the parse
throw a runtime type error (the globals accumulator is null when the global
branch indexes into it) instead of returning a parse result. -/
theorem global_block_throws (f raw : Str) (blanks bs : List Str) (c : Char)
    (h1 : jsSplitChar '\n' raw =
      blanks ++ ((("global ").toList ++ [c]) :: (bs ++ [("endglobal").toList])))
    (h2 : ∀ l ∈ blanks, jsTrim l = [])
    (h3 : isWsChar c = false)
    (h4 : ∀ l ∈ bs, trimEndL l ≠ ("endglobal").toList) :
    parseSnippets f raw = ([], Except.error (JsError.typeError nullIndexMsg)) := by
  simp only [parseSnippets, h1]
  rw [loop_skip_blanks _ _ blanks _ initState [] h2]
  have hhdr_trim : jsTrim (("global ").toList ++ [c]) = ("global ").toList ++ [c] := by
    have e1 : trimStartL (("global ").toList ++ [c]) = ("global ").toList ++ [c] := by
      show trimStartL ('g' :: (("lobal ").toList ++ [c])) = _
      rw [trimStartL_cons_of_not_ws (by decide)]
      rfl
    rw [jsTrim, e1, trimEndL_append_of_not_ws h3]
  have hblank : ¬(jsTrim (("global ").toList ++ [c]) = []) := by
    rw [hhdr_trim]; simp
  have hht := headTail_global (ne_space_of_not_ws h3)
  simp only [parseSnippetsLoop, if_neg hblank, initState]
  rw [if_pos (Or.inr (by rw [hht]; rfl))]
  have hl : blanks ++ ((("global ").toList ++ [c]) :: (bs ++ [("endglobal").toList]))
      = (blanks ++ (("global ").toList ++ [c]) :: bs) ++ ("endglobal").toList :: [] := by
    simp
  have hpre : ∀ l ∈ blanks ++ (("global ").toList ++ [c]) :: bs,
      trimEndL l ≠ ("endglobal").toList := by
    intro l hl2
    rcases List.mem_append.mp hl2 with hm | hm
    · rw [trimEndL_of_jsTrim_nil (h2 l hm)]
      decide
    · rcases List.mem_cons.mp hm with he | hm2
      · subst he
        rw [trimEndL_append_of_not_ws h3]
        intro e
        rw [(rfl : (("global ").toList ++ [c]) = 'g' :: (("lobal ").toList ++ [c]))] at e
        rw [(rfl : ("endglobal").toList = 'e' :: ("ndglobal").toList)] at e
        exact absurd (List.cons_eq_cons.mp e).1 (by decide)
      · exact h4 l hm2
  rw [hl]
  rw [handler_global_throws f h3
    (blanks ++ (("global ").toList ++ [c]) :: bs) [] (("endglobal").toList)
    hpre (by decide) 0 0 []]

theorem global_block_throws_witness :
    parseSnippets (("f").toList) (("\nglobal g\nX\nendglobal").toList) =
      ([], Except.error (JsError.typeError nullIndexMsg)) :=
  global_block_throws (("f").toList) (("\nglobal g\nX\nendglobal").toList)
    [[]] [("X").toList] 'g' (by decide) (by decide) (by decide) (by decide)

/-- Claim C1 (refuted by the code, spec is the intent): on the well-formed
single-block file the claim describes, the load result contains no record at
all, because the generator returns instead of yielding; the record built
internally before the return also fails the claim: its description is empty
(the limit-2 split loses every word after the second) and its body is the
concatenation of all file lines up to the terminator with the last character
chomped, because the body scan starts at the first file line and the split
fragments carry no newlines. -/
theorem single_block_parse_produces_no_record :
    loadSnippetsFile (("test.snippets").toList)
      (("snippet \"trig\" \"desc\"\nBODY\nendsnippet").toList) = Except.ok [] ∧
    parseSnippets (("test.snippets").toList)
      (("snippet \"trig\" \"desc\"\nBODY\nendsnippet").toList) =
      ([], Except.ok (GenReturn.returned (HandlerResult.snip {
        priority := 0
        trigger := ("trig").toList
        value := ("snippet \"trig\" \"desc\"BOD").toList
        description := []
        options := []
        globals := none
        location := ("test.snippets:0").toList
        context := none
        actions := [] }))) := ⟨rfl, rfl⟩

/-- Claim C3 (refuted by the code, spec is the intent): headTail calls split
with a JavaScript limit of 2, which truncates the fragment list to its first
two entries, so for a header of three or more words the tail holds only the
second word instead of everything after the first space. -/
theorem headTail_truncates_tail :
    headTail (("snippet abc def").toList) = [("snippet").toList, ("abc").toList] ∧
    ("abc").toList ≠ ("abc def").toList := ⟨rfl, by decide⟩

/-- Claim C4 (refuted by the code, spec is the intent): on a file whose only
directive has an invalid multiword trigger, the per-directive handler
returns an error tuple, but the scan loop wraps it in a generator return
statement, which the iteration protocol of loadSnippets discards, so the
load result is an empty record list with no error surfaced. -/
theorem handler_error_dropped_by_loop :
    handleSnippetOrGlobal (("test.snippets").toList) (("snippet abc").toList) 0
      [("snippet abc").toList, ("endsnippet").toList] none 0 [] none =
      Except.ok (HandlerResult.err
        (("Invalid multiword trigger: \x27abc\x27").toList) 0, none) ∧
    loadSnippetsFile (("test.snippets").toList)
      (("snippet abc\nendsnippet").toList) = Except.ok [] := ⟨rfl, rfl⟩

/-- Claim C7 (refuted by the code, spec is the intent): a file with a
completed global block followed by a snippet block does not give the later
snippet record the global body in scope; the parse throws a runtime type
error on the global branch (the globals accumulator is null) and yields no
record at all. -/
theorem global_then_snippet_throws :
    parseSnippets (("test.snippets").toList)
      (("global g\nX\nendglobal\nsnippet \"t\"\nB\nendsnippet").toList) =
      ([], Except.error (JsError.typeError nullIndexMsg)) := rfl

/-- Claim C8 (refuted by the code, spec is the intent): a top-level priority
directive line is skipped by the scan loop, which recognizes only snippet
and global, and the generator returns on the first block without yielding,
so the file the claim describes loads zero records; no record with priority
five is ever produced. -/
theorem priority_directive_ignored :
    loadSnippetsFile (("test.snippets").toList)
      (("priority 5\nsnippet \"a\"\nX\nendsnippet\nsnippet \"b\"\nY\nendsnippet").toList) =
      Except.ok [] := rfl
